import Mathlib

/-!
Verification of the GoHexToAscii batch conversion pipeline.

The program (src/cmd/main.go) batch-converts hexadecimal-encoded files
into decoded byte output, writing either to a local folder or appending
rows to a Google Sheets spreadsheet.  We embed the core pipeline
shallowly: file contents are byte lists (`List Nat`, each entry < 256 in
well-formed states), the filesystem is an explicit state record, the
Google Sheets service is an environment whose create/append operations
are modelled as succeeding deterministically (transport failures are
external non-determinism outside the pipeline itself), and the
cancellation context is a boolean flag sampled once per loop iteration.
-/

namespace GoHexToAscii

/-! ### Hex decoding (`HexToAscii`, built on Go `encoding/hex`) -/

/-- Embeds `fromHexChar` of Go `encoding/hex`: maps an ASCII byte to its
hex-digit value, `none` for a non-hex byte. `0-9` are bytes 48-57,
`a-f` 97-102, `A-F` 65-70. -/
def fromHexChar (b : Nat) : Option Nat :=
  if 48 ≤ b ∧ b ≤ 57 then some (b - 48)
  else if 97 ≤ b ∧ b ≤ 102 then some (b - 97 + 10)
  else if 65 ≤ b ∧ b ≤ 70 then some (b - 65 + 10)
  else none

/-- Errors of Go `encoding/hex.Decode`: an invalid byte, or odd input
length (`ErrLength`). -/
inductive HexError where
  | invalidByte (b : Nat)
  | errLength
  deriving DecidableEq, Repr

/-- Embeds `hex.Decode`/`hex.DecodeString`: consume hex-digit pairs,
high nibble first; on a trailing odd byte report `invalidByte` if that
byte is not a hex digit, otherwise `errLength` (mirroring the order of
checks in Go's `Decode`).  Only the fully decoded result is ever used by
the program (`HexToAscii` discards partial output on error). -/
def decodeHexBytes : List Nat → Except HexError (List Nat)
  | [] => .ok []
  | [c] =>
    match fromHexChar c with
    | none => .error (.invalidByte c)
    | some _ => .error .errLength
  | a :: b :: rest =>
    match fromHexChar a with
    | none => .error (.invalidByte a)
    | some hi =>
      match fromHexChar b with
      | none => .error (.invalidByte b)
      | some lo =>
        match decodeHexBytes rest with
        | .error e => .error e
        | .ok ds => .ok ((hi * 16 + lo) :: ds)

/-- Embeds `strings.ReplaceAll(s, string(b), "")` for a single-byte
pattern: removes every occurrence of byte `b`. -/
def replaceAllEmpty (b : Nat) (s : List Nat) : List Nat :=
  s.filter (fun x => x != b)

/-- The cleanup prefix of `HexToAscii`: strip `' '` (32), `'\n'` (10),
`'\r'` (13), in the order the Go code applies the three `ReplaceAll`
calls. -/
def cleanHex (s : List Nat) : List Nat :=
  replaceAllEmpty 13 (replaceAllEmpty 10 (replaceAllEmpty 32 s))

/-- Embeds `HexToAscii` (src/cmd/main.go): strip whitespace, then
`hex.DecodeString`; on decode error return the error and no bytes. -/
def HexToAscii (s : List Nat) : Except HexError (List Nat) :=
  decodeHexBytes (cleanHex s)

/-! ### Hex encoding (Go `encoding/hex.EncodeToString`), used to state
the round-trip property -/

/-- Lowercase hex digit for a nibble `n < 16` (Go's `hextable`). -/
def hexDigitLower (n : Nat) : Nat :=
  if n < 10 then 48 + n else 97 + (n - 10)

/-- Embeds `hex.EncodeToString`: each byte becomes two lowercase hex
digit bytes, high nibble first. -/
def encodeHex : List Nat → List Nat
  | [] => []
  | b :: rest => hexDigitLower (b / 16) :: hexDigitLower (b % 16) :: encodeHex rest

/-- Case folding for the case-insensitive comparison of hex text:
maps `A-F` to `a-f`, leaves every other byte alone. -/
def hexCaseFold (b : Nat) : Nat :=
  if 65 ≤ b ∧ b ≤ 70 then b + 32 else b

/-- A byte is a hex digit iff `fromHexChar` accepts it. -/
def isHexDigit (b : Nat) : Bool :=
  (fromHexChar b).isSome

/-! ### Strings and paths -/

/-- Embeds `strings.TrimSuffix`: drop `suffix` from the end of `s` when
it is a suffix, otherwise return `s` unchanged. -/
def trimSuffix (s suffix : String) : String :=
  if suffix.data.isSuffixOf s.data then
    ⟨s.data.take (s.data.length - suffix.data.length)⟩
  else s

/-- Scan helper for `extGo`: walks the reversed name, accumulating the
suffix seen so far; stops with the extension at the last dot, or with
nothing at a path separator or the start. -/
def extScan : List Char → List Char → Option String
  | [], _ => none
  | c :: rest, acc =>
    if c = '/' then none
    else if c = '.' then some ⟨c :: acc⟩
    else extScan rest (c :: acc)

/-- Embeds `filepath.Ext`: the suffix of the final path element starting
at its last dot, empty when there is none. -/
def extGo (name : String) : String :=
  (extScan name.data.reverse []).getD ""

/-- Embeds `filepath.Join dir name` for a cleaned directory path without
a trailing separator, as produced by the program's prompts. -/
def joinPath (dir name : String) : String :=
  dir ++ "/" ++ name

/-- Destination file name of the local sink
(`strings.TrimSuffix(name, filepath.Ext(name)) + ".txt"`). -/
def dstNameOf (name : String) : String :=
  trimSuffix name (extGo name) ++ ".txt"

/-! ### Filesystem model -/

/-- The local filesystem as seen by the program: per-path content (a
file exists iff its content is `some`), plus per-path "`os.Stat` fails
with an error other than not-exists" (e.g. permission denied on a
parent directory). -/
structure FS where
  content : String → Option (List Nat)
  statFails : String → Bool

/-- Embeds `fileExists`: `_, err := os.Stat(path); return
!os.IsNotExist(err)` — true when the file exists, and also true when
`os.Stat` fails with any error other than not-exists. -/
def fileExists (fs : FS) (path : String) : Bool :=
  if fs.statFails path then true else (fs.content path).isSome

/-- Write `bytes` at `path` (`ioutil.WriteFile`, modelled as
succeeding). -/
def fsWrite (fs : FS) (path : String) (bytes : List Nat) : FS :=
  { fs with content := fun p => if p = path then some bytes else fs.content p }

/-- Per-entry errors surfaced by the pipeline. `readError` stands for an
`ioutil.ReadFile` failure; `malformedHex` wraps the hex decode error;
`insufficientAuth` is the "cannot create a spreadsheet with API-key
authentication" failure. -/
inductive ProcErr where
  | readError
  | malformedHex (e : HexError)
  | insufficientAuth
  deriving DecidableEq, Repr

/-- Per-entry outcome as reported by `processFiles`: "Processed
successfully", "Skipping: Already converted", or "Error
converting/exporting". -/
inductive Outcome where
  | converted
  | skipped
  | failed (e : ProcErr)
  deriving DecidableEq, Repr

/-- Embeds `convertFile`: read the source, decode via `HexToAscii`,
write the decoded bytes to the destination.  Returns the updated
filesystem on success. -/
def convertFile (fs : FS) (srcPath dstPath : String) : Except ProcErr FS :=
  match fs.content srcPath with
  | none => .error .readError
  | some hexData =>
    match HexToAscii hexData with
    | .error e => .error (.malformedHex e)
    | .ok asciiBytes => .ok (fsWrite fs dstPath asciiBytes)

/-! ### Base64 (Go `encoding/base64.StdEncoding.EncodeToString`) -/

/-- The standard base64 alphabet: index `n < 64` to its ASCII byte. -/
def base64Char (n : Nat) : Nat :=
  if n < 26 then 65 + n
  else if n < 52 then 97 + (n - 26)
  else if n < 62 then 48 + (n - 52)
  else if n = 62 then 43
  else 47

/-- Embeds `base64.StdEncoding.EncodeToString`: groups of three bytes
become four alphabet bytes; a final group of one or two bytes is padded
with `'='` (61). -/
def base64Encode : List Nat → List Nat
  | b0 :: b1 :: b2 :: rest =>
    base64Char (b0 / 4) :: base64Char (b0 % 4 * 16 + b1 / 16) ::
      base64Char (b1 % 16 * 4 + b2 / 64) :: base64Char (b2 % 64) :: base64Encode rest
  | [b0, b1] =>
    [base64Char (b0 / 4), base64Char (b0 % 4 * 16 + b1 / 16),
      base64Char (b1 % 16 * 4), 61]
  | [b0] => [base64Char (b0 / 4), base64Char (b0 % 4 * 16), 61, 61]
  | [] => []

/-! ### Remote sink (Google Sheets) -/

/-- The mutable part of `GoogleConfig`: the spreadsheet id (empty string
means unbound, "create on first use") and whether the service was set up
with an API key (read-only credential class). -/
structure GoogleConfig where
  spreadsheetId : String
  useApiKey : Bool
  deriving DecidableEq, Repr

/-- One `Spreadsheets.Values.Append` call: target spreadsheet id, the
range argument, and the single appended row `[name, base64(payload)]`. -/
structure AppendCall where
  sheetId : String
  range : String
  fileName : String
  data : List Nat
  deriving DecidableEq, Repr

/-- The remote service environment: the id that
`Spreadsheets.Create` returns.  Create and append calls are modelled as
succeeding; transport failures are outside the pipeline. -/
structure SheetsEnv where
  newId : String

/-- Remote-sink state threaded through the batch: the (pointer-shared)
config plus the observable history of remote calls. -/
structure RemoteState where
  config : GoogleConfig
  createCalls : Nat
  appends : List AppendCall

/-- Embeds `exportToGoogleSheets`: read the source, decode, refuse to
create a spreadsheet under API-key auth, lazily create (binding
`config.spreadsheetId`) when the id is unbound, then append one row
`[fileName, base64(payload)]` at range `"Sheet1!A1"`. Returns the
per-entry result and the updated remote state. -/
def exportToGoogleSheets (fs : FS) (srcPath fileName : String) (env : SheetsEnv)
    (st : RemoteState) : Except ProcErr Unit × RemoteState :=
  match fs.content srcPath with
  | none => (.error .readError, st)
  | some hexData =>
    match HexToAscii hexData with
    | .error e => (.error (.malformedHex e), st)
    | .ok asciiBytes =>
      if st.config.spreadsheetId = "" ∧ st.config.useApiKey then
        (.error .insufficientAuth, st)
      else
        let st1 :=
          if st.config.spreadsheetId = "" then
            { st with
                config := { st.config with spreadsheetId := env.newId },
                createCalls := st.createCalls + 1 }
          else st
        (.ok (),
          { st1 with
              appends := st1.appends ++
                [{ sheetId := st1.config.spreadsheetId, range := "Sheet1!A1",
                   fileName := fileName, data := base64Encode asciiBytes }] })

/-! ### Batch orchestrator (`processFiles`) -/

/-- A directory entry returned by `ioutil.ReadDir`: its name and whether
it is a directory. -/
structure Entry where
  name : String
  isDir : Bool
  deriving DecidableEq, Repr

/-- `ExportOption` of the program. -/
inductive ExportOption where
  | localFolder
  | googleSheets
  deriving DecidableEq, Repr

/-- The state the batch threads: filesystem, remote-sink state, and the
log of source paths the loop has passed to `ioutil.ReadFile` (recorded
so that "skipped entries are never read" is a statement of the model). -/
structure ProcState where
  fs : FS
  remote : RemoteState
  reads : List String

/-- The per-entry body of the `processFiles` loop, for a non-directory
entry `name`: the `switch exportOption` statement.  Local branch:
compute the destination path, skip when `fileExists`, otherwise read and
`convertFile`.  Remote branch: read and `exportToGoogleSheets`.  Returns
the entry's outcome and the updated state. -/
def processEntry (srcFolder dstFolder : String) (exportOption : ExportOption)
    (env : SheetsEnv) (st : ProcState) (name : String) : Outcome × ProcState :=
  let srcPath := joinPath srcFolder name
  match exportOption with
  | .localFolder =>
    let dstPath := joinPath dstFolder (dstNameOf name)
    if fileExists st.fs dstPath then (.skipped, st)
    else
      let st1 := { st with reads := st.reads ++ [srcPath] }
      match convertFile st.fs srcPath dstPath with
      | .error err => (.failed err, st1)
      | .ok fs' => (.converted, { st1 with fs := fs' })
  | .googleSheets =>
    let st1 := { st with reads := st.reads ++ [srcPath] }
    match exportToGoogleSheets st.fs srcPath name env st.remote with
    | (.error err, rs') => (.failed err, { st1 with remote := rs' })
    | (.ok _, rs') => (.converted, { st1 with remote := rs' })

/-- Embeds the loop of `processFiles` over the listed entries.
`cancelled i` is the value of the cancellation flag (`ctx.Done()`) when
the loop head of iteration `i` polls it; the recursive call shifts the
flag by one, so `cancelled 0` is always the current poll.  Once the flag
reads true the loop returns at once: remaining entries produce no
outcome and no state change.  Directory entries are skipped silently
with no outcome recorded; every other entry is handled by
`processEntry` and its outcome recorded. -/
def processFilesAux (cancelled : Nat → Bool) (srcFolder dstFolder : String)
    (exportOption : ExportOption) (env : SheetsEnv) :
    ProcState → List Entry → List (String × Outcome) × ProcState
  | st, [] => ([], st)
  | st, e :: rest =>
    if cancelled 0 then ([], st)
    else if e.isDir then
      processFilesAux (fun i => cancelled (i + 1)) srcFolder dstFolder exportOption env st rest
    else
      let (o, st1) := processEntry srcFolder dstFolder exportOption env st e.name
      let (outs, st') := processFilesAux (fun i => cancelled (i + 1)) srcFolder dstFolder
        exportOption env st1 rest
      ((e.name, o) :: outs, st')

/-- `processFiles` on an already-listed directory (the `ioutil.ReadDir`
result is passed as `entries`, in its sorted order). -/
def processFiles (cancelled : Nat → Bool) (srcFolder dstFolder : String)
    (exportOption : ExportOption) (env : SheetsEnv) (st : ProcState)
    (entries : List Entry) : List (String × Outcome) × ProcState :=
  processFilesAux cancelled srcFolder dstFolder exportOption env st entries

/-! ### Lemmas about the hex codec -/

/-- Two-step recursion principle matching the pair structure of
`decodeHexBytes`. -/
def pairRec {P : List Nat → Prop} (h0 : P []) (h1 : ∀ c, P [c])
    (h2 : ∀ a b rest, P rest → P (a :: b :: rest)) : ∀ cs, P cs
  | [] => h0
  | [c] => h1 c
  | a :: b :: rest => h2 a b rest (pairRec h0 h1 h2 rest)

/-- A successful `fromHexChar` yields a nibble whose lowercase hex digit
is the case-folded input byte. -/
theorem fromHexChar_some {c v : Nat} (h : fromHexChar c = some v) :
    v < 16 ∧ hexDigitLower v = hexCaseFold c := by
  have hv : (48 ≤ c ∧ c ≤ 57 ∧ v = c - 48) ∨ (97 ≤ c ∧ c ≤ 102 ∧ v = c - 97 + 10)
      ∨ (65 ≤ c ∧ c ≤ 70 ∧ v = c - 65 + 10) := by
    revert h
    unfold fromHexChar
    split_ifs <;> intro h
    · injection h with hv
      omega
    · injection h with hv
      omega
    · injection h with hv
      omega
    · exact absurd h (by simp)
  unfold hexDigitLower hexCaseFold
  split_ifs <;> omega

/-- Case folding is idempotent. -/
theorem hexCaseFold_idem (b : Nat) : hexCaseFold (hexCaseFold b) = hexCaseFold b := by
  unfold hexCaseFold
  split_ifs <;> omega

/-- On an even-length list of hex-digit bytes, `decodeHexBytes`
succeeds, and re-encoding the result gives the case-folded input. -/
theorem decodeHexBytes_ok_of_valid :
    ∀ cs : List Nat, cs.length % 2 = 0 → (∀ b ∈ cs, isHexDigit b = true) →
      ∃ ds, decodeHexBytes cs = .ok ds ∧ encodeHex ds = cs.map hexCaseFold := by
  refine pairRec ?_ ?_ ?_
  · intro _ _
    exact ⟨[], rfl, rfl⟩
  · intro c hlen _
    simp at hlen
  · intro a b rest ih hlen hhex
    have ha : isHexDigit a = true := hhex a (by simp)
    have hb : isHexDigit b = true := hhex b (by simp)
    obtain ⟨hi, hia⟩ : ∃ v, fromHexChar a = some v := by
      unfold isHexDigit at ha
      exact Option.isSome_iff_exists.mp ha
    obtain ⟨lo, lob⟩ : ∃ v, fromHexChar b = some v := by
      unfold isHexDigit at hb
      exact Option.isSome_iff_exists.mp hb
    have hlen' : rest.length % 2 = 0 := by
      simp only [List.length_cons] at hlen
      omega
    obtain ⟨ds, hds, henc⟩ := ih hlen' (fun x hx => hhex x (by simp [hx]))
    refine ⟨(hi * 16 + lo) :: ds, ?_, ?_⟩
    · simp [decodeHexBytes, hia, lob, hds]
    · obtain ⟨hilt, hieq⟩ := fromHexChar_some hia
      obtain ⟨lolt, loeq⟩ := fromHexChar_some lob
      have hdiv : (hi * 16 + lo) / 16 = hi := by omega
      have hmod : (hi * 16 + lo) % 16 = lo := by omega
      simp [encodeHex, hdiv, hmod, hieq, loeq, henc]

/-- A successful `decodeHexBytes` forces an even-length all-hex input. -/
theorem decodeHexBytes_ok_valid :
    ∀ cs : List Nat, (∃ ds, decodeHexBytes cs = .ok ds) →
      cs.length % 2 = 0 ∧ ∀ b ∈ cs, isHexDigit b = true := by
  refine pairRec ?_ ?_ ?_
  · intro _
    simp
  · intro c hex
    obtain ⟨ds, hds⟩ := hex
    cases hfc : fromHexChar c <;> simp [decodeHexBytes, hfc] at hds
  · intro a b rest ih hex
    obtain ⟨ds, hds⟩ := hex
    cases hfa : fromHexChar a <;> simp [decodeHexBytes, hfa] at hds
    cases hfb : fromHexChar b <;> simp [hfb] at hds
    cases hrest : decodeHexBytes rest <;> simp [hrest] at hds
    obtain ⟨hlen, hall⟩ := ih ⟨_, hrest⟩
    refine ⟨by simp only [List.length_cons]; omega, ?_⟩
    intro x hx
    simp at hx
    rcases hx with rfl | rfl | hx
    · simp [isHexDigit, hfa]
    · simp [isHexDigit, hfb]
    · exact hall x hx

/-! ### Claim theorems -/

/-- C1: for every text whose form after stripping space, newline and
carriage-return characters has even length and contains only hex digits,
`HexToAscii` succeeds, and re-encoding the resulting bytes back to hex
equals the stripped form under case-insensitive comparison. -/
theorem C1_hexToAscii_roundTrip (s : List Nat)
    (heven : (cleanHex s).length % 2 = 0)
    (hhex : ∀ b ∈ cleanHex s, isHexDigit b = true) :
    ∃ out, HexToAscii s = .ok out ∧
      (encodeHex out).map hexCaseFold = (cleanHex s).map hexCaseFold := by
  obtain ⟨ds, hds, henc⟩ := decodeHexBytes_ok_of_valid (cleanHex s) heven hhex
  refine ⟨ds, ?_, ?_⟩
  · unfold HexToAscii
    exact hds
  · rw [henc, List.map_map]
    exact List.map_congr_left fun a _ => hexCaseFold_idem a

/-- Witness for C1 on `"48 65\n6C"` (bytes `[52,56,32,54,53,10,54,67]`). -/
theorem C1_witness :
    ((cleanHex [52, 56, 32, 54, 53, 10, 54, 67]).length % 2 = 0 ∧
      ∀ b ∈ cleanHex [52, 56, 32, 54, 53, 10, 54, 67], isHexDigit b = true) ∧
    (∃ out, HexToAscii [52, 56, 32, 54, 53, 10, 54, 67] = .ok out ∧
      (encodeHex out).map hexCaseFold =
        (cleanHex [52, 56, 32, 54, 53, 10, 54, 67]).map hexCaseFold) :=
  ⟨⟨by decide, by decide⟩,
    C1_hexToAscii_roundTrip [52, 56, 32, 54, 53, 10, 54, 67] (by decide) (by decide)⟩

/-- C2: for every text whose stripped form has odd length or a non-hex
character, `HexToAscii` fails with a hex decode error and returns no
byte output. -/
theorem C2_hexToAscii_malformed (s : List Nat)
    (h : (cleanHex s).length % 2 = 1 ∨ ∃ b ∈ cleanHex s, isHexDigit b = false) :
    ∃ e, HexToAscii s = .error e := by
  cases hd : decodeHexBytes (cleanHex s) with
  | error e =>
    refine ⟨e, ?_⟩
    unfold HexToAscii
    exact hd
  | ok ds =>
    exfalso
    obtain ⟨hlen, hall⟩ := decodeHexBytes_ok_valid (cleanHex s) ⟨ds, hd⟩
    rcases h with h | ⟨b, hb, hbad⟩
    · omega
    · rw [hall b hb] at hbad
      exact Bool.noConfusion hbad

/-- Witness for C2 on `"486"` (odd length after stripping). -/
theorem C2_witness :
    ((cleanHex [52, 56, 54]).length % 2 = 1 ∨
      ∃ b ∈ cleanHex [52, 56, 54], isHexDigit b = false) ∧
    ∃ e, HexToAscii [52, 56, 54] = .error e :=
  ⟨by decide, C2_hexToAscii_malformed [52, 56, 54] (by decide)⟩

/-- C3 (amended): for a non-directory entry under the local sink, the
outcome is Skipped iff the destination existence check (`fileExists`,
which reports true whenever `os.Stat` does not fail with not-exists — in
particular whenever the destination exists) reports true; when skipped
the state is completely unchanged (nothing read, decoded or written);
otherwise, when the source reads and decodes successfully, the decoded
payload is written verbatim to the destination path and the outcome is
Converted. -/
theorem C3_local_skip_iff_check (srcFolder dstFolder : String) (env : SheetsEnv)
    (st : ProcState) (name : String) :
    ((processEntry srcFolder dstFolder .localFolder env st name).1 = .skipped ↔
        fileExists st.fs (joinPath dstFolder (dstNameOf name)) = true) ∧
    (fileExists st.fs (joinPath dstFolder (dstNameOf name)) = true →
      processEntry srcFolder dstFolder .localFolder env st name = (.skipped, st)) ∧
    (fileExists st.fs (joinPath dstFolder (dstNameOf name)) = false →
      ∀ hexData payload, st.fs.content (joinPath srcFolder name) = some hexData →
        HexToAscii hexData = .ok payload →
        processEntry srcFolder dstFolder .localFolder env st name =
          (.converted,
            { st with
                fs := fsWrite st.fs (joinPath dstFolder (dstNameOf name)) payload,
                reads := st.reads ++ [joinPath srcFolder name] })) := by
  refine ⟨?_, ?_, ?_⟩
  · constructor
    · intro h
      by_contra hne
      rw [Bool.not_eq_true] at hne
      simp only [processEntry, hne, if_false] at h
      rcases hcv : convertFile st.fs (joinPath srcFolder name)
          (joinPath dstFolder (dstNameOf name)) with err | fs'
        <;> simp [hcv] at h
    · intro h
      simp [processEntry, h]
  · intro h
    simp [processEntry, h]
  · intro h hexData payload hread hdec
    simp only [processEntry, h, if_false]
    rw [show convertFile st.fs (joinPath srcFolder name)
        (joinPath dstFolder (dstNameOf name)) =
          .ok (fsWrite st.fs (joinPath dstFolder (dstNameOf name)) payload) by
      simp [convertFile, hread, hdec]]
    simp

/-- A filesystem where `src/a.hex` holds `"48"`, nothing else exists,
and `os.Stat` on `dst/a.txt` fails with an error other than not-exists
(e.g. permission denied). -/
def statErrFS : FS :=
  { content := fun p => if p = "src/a.hex" then some [52, 56] else none,
    statFails := fun p => p == "dst/a.txt" }

/-- Batch state over `statErrFS` with a fresh remote config and no reads. -/
def statErrState : ProcState :=
  { fs := statErrFS, remote := ⟨⟨"", false⟩, 0, []⟩, reads := [] }

/-- Counterexample to C3 as stated: the destination `dst/a.txt` does not
exist (its `content` is `none`) but `os.Stat` fails on it with an error
other than not-exists, so the entry for `a.hex` is Skipped anyway —
Skipped is not equivalent to the destination already existing. -/
theorem C3_counterexample :
    (processFilesAux (fun _ => false) "src" "dst" .localFolder ⟨""⟩ statErrState
        [⟨"a.hex", false⟩]).1 = [("a.hex", .skipped)] ∧
    statErrFS.content "dst/a.txt" = none := by
  constructor
  · rfl
  · rfl

/-- A filesystem where both `src/a.hex` and the destination `dst/a.txt`
already exist, and `os.Stat` never fails abnormally. -/
def dstExistsFS : FS :=
  { content := fun p =>
      if p = "dst/a.txt" then some [72]
      else if p = "src/a.hex" then some [52, 56] else none,
    statFails := fun _ => false }

/-- Batch state over `dstExistsFS` with a fresh remote config and no reads. -/
def dstExistsState : ProcState :=
  { fs := dstExistsFS, remote := ⟨⟨"", false⟩, 0, []⟩, reads := [] }

/-- Witness for C3 (amended) at a destination that exists: the entry is
Skipped and the state is unchanged. -/
theorem C3_witness :
    fileExists dstExistsState.fs (joinPath "dst" (dstNameOf "a.hex")) = true ∧
    processEntry "src" "dst" .localFolder ⟨""⟩ dstExistsState "a.hex" =
      (.skipped, dstExistsState) :=
  ⟨rfl, (C3_local_skip_iff_check "src" "dst" ⟨""⟩ dstExistsState "a.hex").2.1 rfl⟩

/-- C6: a non-directory local-sink entry whose content fails to decode
gets outcome Failed(malformedHex), no destination file is created or
written (the continuing state's filesystem is the old one, only the read
log grew), and processing continues with the remaining entries. -/
theorem C6_malformed_entry_continues (cancelled : Nat → Bool)
    (srcFolder dstFolder : String) (env : SheetsEnv) (st : ProcState)
    (e : Entry) (rest : List Entry) (hexData : List Nat) (err : HexError)
    (hc : cancelled 0 = false) (hd : e.isDir = false)
    (hnex : fileExists st.fs (joinPath dstFolder (dstNameOf e.name)) = false)
    (hread : st.fs.content (joinPath srcFolder e.name) = some hexData)
    (hdec : HexToAscii hexData = .error err) :
    processFilesAux cancelled srcFolder dstFolder .localFolder env st (e :: rest) =
      ((e.name, .failed (.malformedHex err)) ::
          (processFilesAux (fun i => cancelled (i + 1)) srcFolder dstFolder .localFolder env
            { st with reads := st.reads ++ [joinPath srcFolder e.name] } rest).1,
        (processFilesAux (fun i => cancelled (i + 1)) srcFolder dstFolder .localFolder env
          { st with reads := st.reads ++ [joinPath srcFolder e.name] } rest).2) := by
  have hcv : convertFile st.fs (joinPath srcFolder e.name)
      (joinPath dstFolder (dstNameOf e.name)) = .error (.malformedHex err) := by
    simp [convertFile, hread, hdec]
  simp [processFilesAux, hc, hd, processEntry, hnex, hcv]

/-- A filesystem whose only file `src/b.hex` holds `"486"` (odd-length
hex). -/
def oddFS : FS :=
  { content := fun p => if p = "src/b.hex" then some [52, 56, 54] else none,
    statFails := fun _ => false }

/-- Batch state over `oddFS` with a fresh remote config and no reads. -/
def oddState : ProcState :=
  { fs := oddFS, remote := ⟨⟨"", false⟩, 0, []⟩, reads := [] }

/-- Witness for C6 on `src/b.hex` containing `"486"`. -/
theorem C6_witness :
    processFilesAux (fun _ => false) "src" "dst" .localFolder ⟨""⟩ oddState
        [⟨"b.hex", false⟩] =
      (("b.hex", .failed (.malformedHex .errLength)) ::
          (processFilesAux (fun _ => false) "src" "dst" .localFolder ⟨""⟩
            { oddState with reads := oddState.reads ++ [joinPath "src" "b.hex"] } []).1,
        (processFilesAux (fun _ => false) "src" "dst" .localFolder ⟨""⟩
          { oddState with reads := oddState.reads ++ [joinPath "src" "b.hex"] } []).2) :=
  C6_malformed_entry_continues (fun _ => false) "src" "dst" ⟨""⟩ oddState
    ⟨"b.hex", false⟩ [] [52, 56, 54] .errLength rfl rfl rfl rfl rfl

/-- C9: when `os.Stat` on the computed destination path fails with an
error other than not-exists, `fileExists` reports the path as present
and the entry is Skipped with the state (filesystem, remote, read log)
completely unchanged — regardless of whether the destination actually
exists. -/
theorem C9_statError_skips (srcFolder dstFolder : String) (env : SheetsEnv)
    (st : ProcState) (name : String)
    (h : st.fs.statFails (joinPath dstFolder (dstNameOf name)) = true) :
    fileExists st.fs (joinPath dstFolder (dstNameOf name)) = true ∧
    processEntry srcFolder dstFolder .localFolder env st name = (.skipped, st) := by
  have hfe : fileExists st.fs (joinPath dstFolder (dstNameOf name)) = true := by
    simp [fileExists, h]
  exact ⟨hfe, by simp [processEntry, hfe]⟩

/-- Witness for C9 on `statErrState`, where `dst/a.txt` does not exist
but its status check fails. -/
theorem C9_witness :
    statErrState.fs.statFails (joinPath "dst" (dstNameOf "a.hex")) = true ∧
    (fileExists statErrState.fs (joinPath "dst" (dstNameOf "a.hex")) = true ∧
      processEntry "src" "dst" .localFolder ⟨""⟩ statErrState "a.hex" =
        (.skipped, statErrState)) :=
  ⟨rfl, C9_statError_skips "src" "dst" ⟨""⟩ statErrState "a.hex" rfl⟩

/-- A filesystem with distinct sources `src/a.bin` (content `"48"`) and
`src/a.hex` (content `"65"`), and an empty destination folder. -/
def collideFS : FS :=
  { content := fun p =>
      if p = "src/a.bin" then some [52, 56]
      else if p = "src/a.hex" then some [54, 53] else none,
    statFails := fun _ => false }

/-- Batch state over `collideFS` with a fresh remote config and no reads. -/
def collideState : ProcState :=
  { fs := collideFS, remote := ⟨⟨"", false⟩, 0, []⟩, reads := [] }

/-- C10: the destination-name mapping is not injective — `a.hex` and
`a.bin` are distinct but both map to `a.txt` — so in a batch over both
(in `ReadDir`'s sorted order) the second is Skipped: the destination
keeps the first entry's payload (`"48"` decodes to `[72]`), the second
source is never read, and its decoded content `[101]` is never written;
and a bare-extension name `.hex` maps to `.txt`. -/
theorem C10_dstName_not_injective :
    dstNameOf "a.hex" = "a.txt" ∧ dstNameOf "a.bin" = "a.txt" ∧ "a.hex" ≠ "a.bin" ∧
    dstNameOf ".hex" = ".txt" ∧
    HexToAscii [54, 53] = .ok [101] ∧
    (processFilesAux (fun _ => false) "src" "dst" .localFolder ⟨""⟩ collideState
        [⟨"a.bin", false⟩, ⟨"a.hex", false⟩]).1 =
      [("a.bin", .converted), ("a.hex", .skipped)] ∧
    ((processFilesAux (fun _ => false) "src" "dst" .localFolder ⟨""⟩ collideState
        [⟨"a.bin", false⟩, ⟨"a.hex", false⟩]).2).fs.content "dst/a.txt" = some [72] ∧
    ((processFilesAux (fun _ => false) "src" "dst" .localFolder ⟨""⟩ collideState
        [⟨"a.bin", false⟩, ⟨"a.hex", false⟩]).2).reads = ["src/a.bin"] := by
  refine ⟨rfl, rfl, by decide, rfl, rfl, rfl, rfl, rfl⟩

/-- The iteration index at which a flag first reads true, capped at `n`:
`firstTrue f n` is the least `i < n` with `f i = true`, or `n` when the
flag stays false for the whole range. -/
def firstTrue (f : Nat → Bool) : Nat → Nat
  | 0 => 0
  | n + 1 => if f 0 then 0 else firstTrue (fun i => f (i + 1)) n + 1

/-- C7: the flag is polled exactly once per loop iteration, before the
entry is handled, so a run under any cancellation flag equals the
uncancelled run on the prefix of entries strictly before the first
iteration whose poll reads true: those entries are processed to
completion with their outcomes recorded (an entry in flight is never
interrupted), and the entries from the first cancelled poll on are left
unprocessed with no outcome recorded and no state change. -/
theorem C7_cancellation_stops_batch (cancelled : Nat → Bool)
    (srcFolder dstFolder : String) (exportOption : ExportOption) (env : SheetsEnv)
    (st : ProcState) (entries : List Entry) :
    processFilesAux cancelled srcFolder dstFolder exportOption env st entries =
      processFilesAux (fun _ => false) srcFolder dstFolder exportOption env st
        (entries.take (firstTrue cancelled entries.length)) := by
  induction entries generalizing cancelled st with
  | nil => simp [processFilesAux]
  | cons e rest ih =>
    cases hc : cancelled 0 with
    | true =>
      simp [processFilesAux, hc, firstTrue]
    | false =>
      simp only [List.length_cons, firstTrue, hc, Bool.false_eq_true, if_false,
        List.take_succ_cons]
      simp only [processFilesAux, hc, Bool.false_eq_true, if_false]
      cases hd : e.isDir with
      | true =>
        simp only [hd, if_true]
        exact ih (fun i => cancelled (i + 1)) st
      | false =>
        simp only [hd, Bool.false_eq_true, if_false]
        rw [ih (fun i => cancelled (i + 1))]

/-! ### Remote-sink lemmas -/

/-- The per-entry outcome of the remote sink when the spreadsheet id is
unbound and the credential is an API key: the read or decode error when
there is one, otherwise the insufficient-authentication failure. -/
def apiKeyOutcome (fs : FS) (srcPath : String) : Outcome :=
  match fs.content srcPath with
  | none => .failed .readError
  | some hexData =>
    match HexToAscii hexData with
    | .error e => .failed (.malformedHex e)
    | .ok _ => .failed .insufficientAuth

/-- With an unbound id and an API-key credential, `exportToGoogleSheets`
always fails and leaves the remote state untouched: read and decode
failures surface as such, and a successful decode hits the
"cannot create new spreadsheet with API key authentication" error before
any create or append call. -/
theorem export_apiKey_fails (fs : FS) (srcPath name : String) (env : SheetsEnv)
    (rs : RemoteState) (hid : rs.config.spreadsheetId = "")
    (hkey : rs.config.useApiKey = true) :
    exportToGoogleSheets fs srcPath name env rs =
      (match apiKeyOutcome fs srcPath with
        | .failed e => .error e
        | _ => .ok (), rs) := by
  unfold exportToGoogleSheets apiKeyOutcome
  cases hr : fs.content srcPath with
  | none => simp
  | some hexData =>
    cases hdec : HexToAscii hexData with
    | error e => simp [hdec]
    | ok payload => simp [hdec, hid, hkey]

/-- C5: under the remote sink with an unbound spreadsheet id and an
API-key credential, every non-directory entry fails — with
InsufficientAuthError whenever its content reads and decodes — no
resource is ever created and the remote state stays untouched
(`st.remote` unchanged, so zero create calls and no appends), and the
batch still visits every entry, recording an outcome for each. -/
theorem C5_apiKey_unbound_all_fail (srcFolder dstFolder : String) (env : SheetsEnv)
    (st : ProcState) (entries : List Entry)
    (hid : st.remote.config.spreadsheetId = "")
    (hkey : st.remote.config.useApiKey = true) :
    processFilesAux (fun _ => false) srcFolder dstFolder .googleSheets env st entries =
      ((entries.filter (fun e => !e.isDir)).map
          (fun e => (e.name, apiKeyOutcome st.fs (joinPath srcFolder e.name))),
        { st with reads := st.reads ++
            (entries.filter (fun e => !e.isDir)).map (fun e => joinPath srcFolder e.name) }) := by
  induction entries generalizing st with
  | nil => simp [processFilesAux]
  | cons e rest ih =>
    cases hd : e.isDir with
    | true =>
      rw [show processFilesAux (fun _ => false) srcFolder dstFolder .googleSheets env st
          (e :: rest) =
            processFilesAux (fun _ => false) srcFolder dstFolder .googleSheets env st rest by
        simp [processFilesAux, hd]]
      rw [ih st hid hkey]
      simp [hd]
    | false =>
      have hexp := export_apiKey_fails st.fs (joinPath srcFolder e.name) e.name env
        st.remote hid hkey
      obtain ⟨err, herr⟩ :
          ∃ err, apiKeyOutcome st.fs (joinPath srcFolder e.name) = .failed err := by
        unfold apiKeyOutcome
        cases st.fs.content (joinPath srcFolder e.name) with
        | none => exact ⟨_, rfl⟩
        | some hexData =>
          cases hdec : HexToAscii hexData with
          | error e => exact ⟨.malformedHex e, by simp [hdec]⟩
          | ok _ => exact ⟨.insufficientAuth, by simp [hdec]⟩
      have hstep : processFilesAux (fun _ => false) srcFolder dstFolder .googleSheets env st
          (e :: rest) =
            ((e.name, .failed err) ::
                (processFilesAux (fun _ => false) srcFolder dstFolder .googleSheets env
                  { st with reads := st.reads ++ [joinPath srcFolder e.name] } rest).1,
              (processFilesAux (fun _ => false) srcFolder dstFolder .googleSheets env
                { st with reads := st.reads ++ [joinPath srcFolder e.name] } rest).2) := by
        simp only [processFilesAux, Bool.false_eq_true, if_false, hd, processEntry, hexp, herr]
      rw [hstep, ih { st with reads := st.reads ++ [joinPath srcFolder e.name] } hid hkey]
      simp [hd, herr, List.append_assoc]

/-- Batch state for a remote run configured with an API key and no
spreadsheet id, over `collideFS`. -/
def apiKeyState : ProcState :=
  { fs := collideFS, remote := ⟨⟨"", true⟩, 0, []⟩, reads := [] }

/-- Witness for C5: a one-entry batch over a readable, decodable source
under API-key auth with an unbound id. -/
theorem C5_witness :
    apiKeyState.remote.config.spreadsheetId = "" ∧
    apiKeyState.remote.config.useApiKey = true ∧
    processFilesAux (fun _ => false) "src" "dst" .googleSheets ⟨""⟩ apiKeyState
        [⟨"a.bin", false⟩] =
      ((([⟨"a.bin", false⟩] : List Entry).filter (fun e => !e.isDir)).map
          (fun e => (e.name, apiKeyOutcome apiKeyState.fs (joinPath "src" e.name))),
        { apiKeyState with reads :=
            (apiKeyState.reads ++
              (([⟨"a.bin", false⟩] : List Entry).filter (fun e => !e.isDir)).map
                (fun e => joinPath "src" e.name)) }) :=
  ⟨rfl, rfl,
    C5_apiKey_unbound_all_fail "src" "dst" ⟨""⟩ apiKeyState [⟨"a.bin", false⟩] rfl rfl⟩

/-- Invariant of the remote state in a batch that starts unbound with a
creation-capable credential: the credential class never changes, and the
state is either still unbound with zero create calls and no appends, or
bound to the created id with exactly one create call and every append
targeting that id. -/
def remoteInv (env : SheetsEnv) (rs : RemoteState) : Prop :=
  rs.config.useApiKey = false ∧
  ((rs.config.spreadsheetId = "" ∧ rs.createCalls = 0 ∧ rs.appends = []) ∨
    (rs.config.spreadsheetId = env.newId ∧ rs.createCalls = 1 ∧
      ∀ a ∈ rs.appends, a.sheetId = env.newId))

/-- `exportToGoogleSheets` when the source read fails. -/
theorem export_eq_read_fail (fs : FS) (srcPath name : String) (env : SheetsEnv)
    (rs : RemoteState) (hr : fs.content srcPath = none) :
    exportToGoogleSheets fs srcPath name env rs = (.error .readError, rs) := by
  unfold exportToGoogleSheets
  rw [hr]

/-- `exportToGoogleSheets` when the content fails to decode. -/
theorem export_eq_decode_fail (fs : FS) (srcPath name : String) (env : SheetsEnv)
    (rs : RemoteState) (hexData : List Nat) (e : HexError)
    (hr : fs.content srcPath = some hexData) (hdec : HexToAscii hexData = .error e) :
    exportToGoogleSheets fs srcPath name env rs = (.error (.malformedHex e), rs) := by
  unfold exportToGoogleSheets
  rw [hr]
  simp [hdec]

/-- `exportToGoogleSheets` on a decodable entry with an unbound id and a
creation-capable credential: creates the spreadsheet, binds its id, and
appends the row to it. -/
theorem export_eq_ok_unbound (fs : FS) (srcPath name : String) (env : SheetsEnv)
    (rs : RemoteState) (hexData payload : List Nat)
    (hr : fs.content srcPath = some hexData) (hdec : HexToAscii hexData = .ok payload)
    (hid : rs.config.spreadsheetId = "") (hkey : rs.config.useApiKey = false) :
    exportToGoogleSheets fs srcPath name env rs =
      (.ok (), ⟨⟨env.newId, false⟩, rs.createCalls + 1,
        rs.appends ++ [⟨env.newId, "Sheet1!A1", name, base64Encode payload⟩]⟩) := by
  unfold exportToGoogleSheets
  rw [hr]
  simp [hdec, hid, hkey]

/-- `exportToGoogleSheets` on a decodable entry with a bound id: no
create call, appends the row to the bound id. -/
theorem export_eq_ok_bound (fs : FS) (srcPath name : String) (env : SheetsEnv)
    (rs : RemoteState) (hexData payload : List Nat)
    (hr : fs.content srcPath = some hexData) (hdec : HexToAscii hexData = .ok payload)
    (hid : rs.config.spreadsheetId ≠ "") :
    exportToGoogleSheets fs srcPath name env rs =
      (.ok (), { rs with appends :=
        rs.appends ++ [⟨rs.config.spreadsheetId, "Sheet1!A1", name, base64Encode payload⟩] }) := by
  unfold exportToGoogleSheets
  rw [hr]
  simp [hdec, hid]

/-- One `exportToGoogleSheets` call preserves `remoteInv`. -/
theorem export_preserves_inv (fs : FS) (srcPath name : String) (env : SheetsEnv)
    (rs : RemoteState) (hnew : env.newId ≠ "") (hinv : remoteInv env rs) :
    remoteInv env (exportToGoogleSheets fs srcPath name env rs).2 := by
  obtain ⟨hkey, hcases⟩ := hinv
  cases hr : fs.content srcPath with
  | none => rw [export_eq_read_fail fs srcPath name env rs hr]; exact ⟨hkey, hcases⟩
  | some hexData =>
    cases hdec : HexToAscii hexData with
    | error e =>
      rw [export_eq_decode_fail fs srcPath name env rs hexData e hr hdec]
      exact ⟨hkey, hcases⟩
    | ok payload =>
      by_cases hid : rs.config.spreadsheetId = ""
      · rcases hcases with ⟨_, hcc, happ⟩ | ⟨hidn, _, _⟩
        · rw [export_eq_ok_unbound fs srcPath name env rs hexData payload hr hdec hid hkey]
          refine ⟨rfl, Or.inr ⟨rfl, by rw [hcc], ?_⟩⟩
          intro a ha
          rw [happ, List.nil_append, List.mem_singleton] at ha
          rw [ha]
        · exact absurd (hidn.symm.trans hid) hnew
      · rcases hcases with ⟨hid0, _, _⟩ | ⟨hidn, hcc, happ⟩
        · exact absurd hid0 hid
        · rw [export_eq_ok_bound fs srcPath name env rs hexData payload hr hdec hid]
          refine ⟨hkey, Or.inr ⟨hidn, hcc, ?_⟩⟩
          intro a ha
          rw [List.mem_append] at ha
          rcases ha with ha | ha
          · exact happ a ha
          · rw [List.mem_singleton] at ha
            rw [ha]
            exact hidn

/-- A whole batch under the remote sink preserves `remoteInv`. -/
theorem run_preserves_inv (cancelled : Nat → Bool) (srcFolder dstFolder : String)
    (env : SheetsEnv) (st : ProcState) (entries : List Entry)
    (hnew : env.newId ≠ "") (hinv : remoteInv env st.remote) :
    remoteInv env
      (processFilesAux cancelled srcFolder dstFolder .googleSheets env st entries).2.remote := by
  induction entries generalizing cancelled st with
  | nil => simpa [processFilesAux] using hinv
  | cons e rest ih =>
    cases hc : cancelled 0 with
    | true => simpa [processFilesAux, hc] using hinv
    | false =>
      cases hd : e.isDir with
      | true =>
        have heq : processFilesAux cancelled srcFolder dstFolder .googleSheets env st
            (e :: rest) =
              processFilesAux (fun i => cancelled (i + 1)) srcFolder dstFolder .googleSheets
                env st rest := by
          simp [processFilesAux, hc, hd]
        rw [heq]
        exact ih (fun i => cancelled (i + 1)) st hinv
      | false =>
        rcases hexp : exportToGoogleSheets st.fs (joinPath srcFolder e.name) e.name env
          st.remote with ⟨r, rs'⟩
        have hrs' : remoteInv env rs' := by
          have hpre := export_preserves_inv st.fs (joinPath srcFolder e.name) e.name env
            st.remote hnew hinv
          rw [hexp] at hpre
          exact hpre
        cases r with
        | error err =>
          simp only [processFilesAux, hc, hd, Bool.false_eq_true, if_false, processEntry, hexp]
          exact ih (fun i => cancelled (i + 1)) _ hrs'
        | ok u =>
          simp only [processFilesAux, hc, hd, Bool.false_eq_true, if_false, processEntry, hexp]
          exact ih (fun i => cancelled (i + 1)) _ hrs'

/-- C4: in a remote batch that starts with an unbound spreadsheet id, a
creation-capable credential and a fresh call history, if any row was
appended by the end then exactly one create call was made, the id was
bound to the created spreadsheet's id, and every append in the batch
targeted that one id (the id, once bound, is never changed). -/
theorem C4_single_create_then_reuse (cancelled : Nat → Bool)
    (srcFolder dstFolder : String) (env : SheetsEnv) (st : ProcState)
    (entries : List Entry) (hnew : env.newId ≠ "")
    (hinit : st.remote = ⟨⟨"", false⟩, 0, []⟩)
    (happ : (processFilesAux cancelled srcFolder dstFolder .googleSheets env st
      entries).2.remote.appends ≠ []) :
    (processFilesAux cancelled srcFolder dstFolder .googleSheets env st
        entries).2.remote.createCalls = 1 ∧
    (processFilesAux cancelled srcFolder dstFolder .googleSheets env st
        entries).2.remote.config.spreadsheetId = env.newId ∧
    ∀ a ∈ (processFilesAux cancelled srcFolder dstFolder .googleSheets env st
        entries).2.remote.appends, a.sheetId = env.newId := by
  have hinv0 : remoteInv env st.remote := by
    rw [hinit]
    exact ⟨rfl, Or.inl ⟨rfl, rfl, rfl⟩⟩
  have hfin := run_preserves_inv cancelled srcFolder dstFolder env st entries hnew hinv0
  rcases hfin with ⟨-, ⟨-, -, happ0⟩ | ⟨hid, hcc, hall⟩⟩
  · exact absurd happ0 happ
  · exact ⟨hcc, hid, hall⟩

/-- The remote service environment used in the remote witnesses. -/
def sheetEnv : SheetsEnv := ⟨"SHEET1"⟩

/-- Witness for C4: a one-entry creation-capable batch over `collideFS`
appends a row, so exactly one create call was made and the appended row
targets the created id. -/
theorem C4_witness :
    (sheetEnv.newId ≠ "" ∧ collideState.remote = ⟨⟨"", false⟩, 0, []⟩ ∧
      (processFilesAux (fun _ => false) "src" "dst" .googleSheets sheetEnv collideState
        [⟨"a.bin", false⟩]).2.remote.appends ≠ []) ∧
    ((processFilesAux (fun _ => false) "src" "dst" .googleSheets sheetEnv collideState
        [⟨"a.bin", false⟩]).2.remote.createCalls = 1 ∧
      (processFilesAux (fun _ => false) "src" "dst" .googleSheets sheetEnv collideState
        [⟨"a.bin", false⟩]).2.remote.config.spreadsheetId = sheetEnv.newId ∧
      ∀ a ∈ (processFilesAux (fun _ => false) "src" "dst" .googleSheets sheetEnv collideState
        [⟨"a.bin", false⟩]).2.remote.appends, a.sheetId = sheetEnv.newId) :=
  ⟨⟨by decide, rfl, by decide⟩,
    C4_single_create_then_reuse (fun _ => false) "src" "dst" sheetEnv collideState
      [⟨"a.bin", false⟩] (by decide) rfl (by decide)⟩

/-- The content of an append call, without the target spreadsheet id:
(range, file name, appended data). -/
def appendView (a : AppendCall) : String × String × List Nat :=
  (a.range, a.fileName, a.data)

/-- The row the remote sink is expected to append for a source path:
`some ("Sheet1!A1", name, base64(payload))` when the source reads and
decodes, `none` otherwise. -/
def rowOf (fs : FS) (srcPath name : String) : Option (String × String × List Nat) :=
  match fs.content srcPath with
  | none => none
  | some hexData =>
    match HexToAscii hexData with
    | .error _ => none
    | .ok payload => some ("Sheet1!A1", name, base64Encode payload)

/-- One `exportToGoogleSheets` call, under a workable credential (not
API-key-with-unbound-id), appends exactly the expected row — no
skip-if-exists check of any kind — and can only leave the credential
unchanged and the id unchanged or bound to the created id. -/
theorem export_step_view (fs : FS) (srcPath name : String) (env : SheetsEnv)
    (rs : RemoteState)
    (hauth : rs.config.useApiKey = false ∨ rs.config.spreadsheetId ≠ "") :
    (exportToGoogleSheets fs srcPath name env rs).2.appends.map appendView =
      rs.appends.map appendView ++ (rowOf fs srcPath name).toList ∧
    (exportToGoogleSheets fs srcPath name env rs).2.config.useApiKey =
      rs.config.useApiKey ∧
    ((exportToGoogleSheets fs srcPath name env rs).2.config.spreadsheetId =
        rs.config.spreadsheetId ∨
      (exportToGoogleSheets fs srcPath name env rs).2.config.spreadsheetId = env.newId) := by
  cases hr : fs.content srcPath with
  | none =>
    rw [export_eq_read_fail fs srcPath name env rs hr]
    simp [rowOf, hr]
  | some hexData =>
    cases hdec : HexToAscii hexData with
    | error e =>
      rw [export_eq_decode_fail fs srcPath name env rs hexData e hr hdec]
      simp [rowOf, hr, hdec]
    | ok payload =>
      by_cases hid : rs.config.spreadsheetId = ""
      · have hkey : rs.config.useApiKey = false := by
          rcases hauth with h | h
          · exact h
          · exact absurd hid h
        rw [export_eq_ok_unbound fs srcPath name env rs hexData payload hr hdec hid hkey]
        simp [rowOf, hr, hdec, appendView, hkey]
      · rw [export_eq_ok_bound fs srcPath name env rs hexData payload hr hdec hid]
        simp [rowOf, hr, hdec, appendView]

/-- C8: a full remote batch appends, per readable-and-decodable
non-directory entry, exactly one row `(Sheet1!A1, name, base64(payload))`
— on top of whatever appends were already in the history, with no
skip-if-exists check — and leaves the local filesystem and the
credential class unchanged, with the id unchanged or bound to the
created id.  Because the conclusion's filesystem/credential facts
re-establish the hypotheses, re-running the batch from the final state
appends the same rows a second time rather than skipping them. -/
theorem C8_remote_appends_every_decoded (srcFolder dstFolder : String)
    (env : SheetsEnv) (st : ProcState) (entries : List Entry)
    (hnew : env.newId ≠ "")
    (hauth : st.remote.config.useApiKey = false ∨ st.remote.config.spreadsheetId ≠ "") :
    ((processFilesAux (fun _ => false) srcFolder dstFolder .googleSheets env st
          entries).2.remote.appends).map appendView =
      st.remote.appends.map appendView ++
        entries.filterMap
          (fun e => if e.isDir then none
            else rowOf st.fs (joinPath srcFolder e.name) e.name) ∧
    (processFilesAux (fun _ => false) srcFolder dstFolder .googleSheets env st
        entries).2.fs = st.fs ∧
    (processFilesAux (fun _ => false) srcFolder dstFolder .googleSheets env st
        entries).2.remote.config.useApiKey = st.remote.config.useApiKey ∧
    ((processFilesAux (fun _ => false) srcFolder dstFolder .googleSheets env st
        entries).2.remote.config.spreadsheetId = st.remote.config.spreadsheetId ∨
      (processFilesAux (fun _ => false) srcFolder dstFolder .googleSheets env st
        entries).2.remote.config.spreadsheetId = env.newId) := by
  induction entries generalizing st with
  | nil => simp [processFilesAux]
  | cons e rest ih =>
    cases hd : e.isDir with
    | true =>
      have heq : processFilesAux (fun _ => false) srcFolder dstFolder .googleSheets env st
          (e :: rest) =
            processFilesAux (fun _ => false) srcFolder dstFolder .googleSheets env st rest := by
        simp [processFilesAux, hd]
      rw [heq]
      obtain ⟨h1, h2, h3, h4⟩ := ih st hauth
      exact ⟨by rw [h1]; simp [hd], h2, h3, h4⟩
    | false =>
      rcases hexp : exportToGoogleSheets st.fs (joinPath srcFolder e.name) e.name env
        st.remote with ⟨r, rs'⟩
      have hstep := export_step_view st.fs (joinPath srcFolder e.name) e.name env
        st.remote hauth
      rw [hexp] at hstep
      obtain ⟨hsapp, hskey, hsid⟩ := hstep
      have hauth' : rs'.config.useApiKey = false ∨ rs'.config.spreadsheetId ≠ "" := by
        rcases hauth with h | h
        · exact Or.inl (hskey.trans h)
        · rcases hsid with hi | hi
          · exact Or.inr (by rw [hi]; exact h)
          · exact Or.inr (by rw [hi]; exact hnew)
      obtain ⟨h1, h2, h3, h4⟩ := ih
        { st with remote := rs', reads := st.reads ++ [joinPath srcFolder e.name] } hauth'
      cases r with
      | error err =>
        simp only [processFilesAux, Bool.false_eq_true, if_false, hd, processEntry, hexp]
        refine ⟨?_, h2, h3.trans hskey, ?_⟩
        · rw [h1, hsapp]
          simp only [List.append_assoc]
          rw [List.filterMap_cons]
          simp only [hd, Bool.false_eq_true, if_false]
          cases hrow : rowOf st.fs (joinPath srcFolder e.name) e.name <;> simp [hrow]
        · rcases h4 with hi | hi
          · rcases hsid with hj | hj
            · exact Or.inl (hi.trans hj)
            · exact Or.inr (hi.trans hj)
          · exact Or.inr hi
      | ok u =>
        simp only [processFilesAux, Bool.false_eq_true, if_false, hd, processEntry, hexp]
        refine ⟨?_, h2, h3.trans hskey, ?_⟩
        · rw [h1, hsapp]
          simp only [List.append_assoc]
          rw [List.filterMap_cons]
          simp only [hd, Bool.false_eq_true, if_false]
          cases hrow : rowOf st.fs (joinPath srcFolder e.name) e.name <;> simp [hrow]
        · rcases h4 with hi | hi
          · rcases hsid with hj | hj
            · exact Or.inl (hi.trans hj)
            · exact Or.inr (hi.trans hj)
          · exact Or.inr hi

/-- Witness for C8: a one-entry creation-capable batch over `collideFS`
appends exactly the row for `a.bin`. -/
theorem C8_witness :
    (sheetEnv.newId ≠ "" ∧
      (collideState.remote.config.useApiKey = false ∨
        collideState.remote.config.spreadsheetId ≠ "")) ∧
    (((processFilesAux (fun _ => false) "src" "dst" .googleSheets sheetEnv collideState
          [⟨"a.bin", false⟩]).2.remote.appends).map appendView =
      collideState.remote.appends.map appendView ++
        ([⟨"a.bin", false⟩] : List Entry).filterMap
          (fun e => if e.isDir then none
            else rowOf collideState.fs (joinPath "src" e.name) e.name) ∧
    (processFilesAux (fun _ => false) "src" "dst" .googleSheets sheetEnv collideState
        [⟨"a.bin", false⟩]).2.fs = collideState.fs ∧
    (processFilesAux (fun _ => false) "src" "dst" .googleSheets sheetEnv collideState
        [⟨"a.bin", false⟩]).2.remote.config.useApiKey =
      collideState.remote.config.useApiKey ∧
    ((processFilesAux (fun _ => false) "src" "dst" .googleSheets sheetEnv collideState
        [⟨"a.bin", false⟩]).2.remote.config.spreadsheetId =
        collideState.remote.config.spreadsheetId ∨
      (processFilesAux (fun _ => false) "src" "dst" .googleSheets sheetEnv collideState
        [⟨"a.bin", false⟩]).2.remote.config.spreadsheetId = sheetEnv.newId)) :=
  ⟨⟨by decide, Or.inl rfl⟩,
    C8_remote_appends_every_decoded "src" "dst" sheetEnv collideState
      [⟨"a.bin", false⟩] (by decide) (Or.inl rfl)⟩

end GoHexToAscii
